import Mathlib

/-!
Verification of the ddosify scenario-execution engine and stdout reporter
(core/scenario/service.go and core/report/stdout.go) against their
natural-language specification.  Go code is shallowly embedded: maps become
association lists whose list order stands for the (undefined) map iteration
order, side effects (requester sends, sleeps) are recorded in explicit
traces, and Go panics become values of Except.
-/

namespace Ddosify

/-- Error kinds of types.RequestError.Type.  The Go constants keep their
original (misspelled) names; errorOther stands for every other value of the
string-typed field, including the empty string of a successful step. -/
inductive ErrorType where
  | errorProxy
  | errorIntented
  | errorUnkown
  | errorOther
deriving DecidableEq, Repr

/-- types.RequestError: a typed error with a kind and a reason. -/
structure RequestError where
  type : ErrorType
  reason : String
deriving DecidableEq, Repr

/-- A value of dynamic (interface) type, as stored in a StepResult's
DebugInfo map and in the request/response body: an http.Header, a string,
or anything else.  An http.Header is a map from (canonical) field name to
the list of its values. -/
inductive DynVal where
  | header (h : List (String × List String))
  | str (s : String)
  | other
deriving DecidableEq, Repr

/-- The request half of the verbose transcript view of a step result. -/
structure VerboseRequest where
  url : String
  method : String
  headers : List (String × String)
  body : DynVal
deriving DecidableEq, Repr

/-- The response half of the verbose transcript view of a step result. -/
structure VerboseResponse where
  statusCode : Nat
  headers : List (String × String)
  body : DynVal
deriving DecidableEq, Repr

/-- Verbose transcript view of one step result (report package). -/
structure VerboseHttpRequestInfo where
  stepId : Nat
  stepName : String
  request : VerboseRequest
  error : String
  response : VerboseResponse
deriving DecidableEq, Repr

/-- types.ScenarioStepResult, restricted to the fields the engine and the
debug reporter inspect: the typed error, the DebugInfo map of dynamically
typed values, and the data backing the verbose transcript view. -/
structure ScenarioStepResult where
  stepID : Nat
  err : RequestError
  debugInfo : List (String × DynVal)
  verbose : VerboseHttpRequestInfo
deriving DecidableEq, Repr

/-- Modelled from the spec: ScenarioStepResultToVerboseHttpRequestInfo
(core/report/verbose.go, not among the sources) extracts the transcript
view (step id/name, request target/method/headers/body, error text,
response status/headers/body) from a ScenarioStepResult; the step result is
modelled as already carrying that extracted view. -/
def ScenarioStepResultToVerboseHttpRequestInfo (sr : ScenarioStepResult) :
    VerboseHttpRequestInfo :=
  sr.verbose

/-- A requester (external collaborator).  Its Send() performs the step's
network operation; within one engine run each requester is sent exactly
once, so it is modelled by the ScenarioStepResult that this one Send
returns. -/
structure Requester where
  sendResult : ScenarioStepResult
deriving DecidableEq, Repr

/-- Sleeper implementations: RangeSleep (min, max) and DurationSleep. -/
inductive Sleeper where
  | rangeSleep (min max : Int)
  | durationSleep (duration : Int)
deriving DecidableEq, Repr

/-- Decimal digit run parser: some value iff the string is a nonempty run
of decimal digits. -/
def goDigits : List Char → Option Nat
  | [] => none
  | cs => go cs 0
where
  go : List Char → Nat → Option Nat
    | [], acc => some acc
    | c :: cs, acc =>
      if c.isDigit then go cs (acc * 10 + (c.toNat - 48)) else none

/-- strconv.Atoi: parses an optionally signed decimal integer; on a syntax
error it returns 0 (the Go call sites discard the error value).  Overflow
of the 64-bit int is not modelled; the validated sleep strings are far
below it. -/
def goAtoi (s : String) : Int :=
  match s.data with
  | '-' :: rest =>
    match goDigits rest with
    | some n => -(n : Int)
    | none => 0
  | '+' :: rest =>
    match goDigits rest with
    | some n => (n : Int)
    | none => 0
  | l =>
    match goDigits l with
    | some n => (n : Int)
    | none => 0

/-- Splitting loop behind goSplit, structurally recursive on a fuel bound
so that it evaluates by kernel reduction: scans left to right, cutting at
each (non-overlapping) occurrence of the separator. -/
def goSplitAux (sep : List Char) : Nat → List Char → List Char →
    List (List Char)
  | 0, rest, acc => [acc.reverse ++ rest]
  | fuel + 1, cs, acc =>
    match cs with
    | [] => [acc.reverse]
    | c :: rest =>
      if sep.isPrefixOf cs then
        acc.reverse :: goSplitAux sep fuel (cs.drop sep.length) []
      else
        goSplitAux sep fuel rest (c :: acc)

/-- strings.Split: splits around each non-overlapping instance of a
non-empty separator; an empty separator splits after each character. -/
def goSplit (s sep : String) : List String :=
  if sep = "" then
    s.data.map (fun c => String.mk [c])
  else
    (goSplitAux sep.data (s.data.length + 1) s.data []).map String.mk

/-- strings.Contains: whether the (non-empty) substring occurs in s. -/
def goContains (s sub : String) : Bool :=
  (goSplit s sub).length != 1

/-- newSleeper: factory for the Sleeper implementations.  An empty spec
yields no sleeper; a spec splitting into exactly two parts on the dash
yields a RangeSleep (swapping min and max when min > max); anything else
yields a DurationSleep parsed from the first part. -/
def newSleeper (sleepStr : String) : Option Sleeper :=
  if sleepStr = "" then
    none
  else
    match goSplit sleepStr "-" with
    | [a, b] =>
      let mn := goAtoi a
      let mx := goAtoi b
      if mn > mx then some (.rangeSleep mx mn) else some (.rangeSleep mn mx)
    | parts => some (.durationSleep (goAtoi (parts.headD "")))

/-- The duration RangeSleep.sleep blocks for, as a function of the draw r
of rand.Intn(max-min+1), which is uniform on [0, max-min+1); DurationSleep
always blocks for its configured duration. -/
def Sleeper.sleepDur : Sleeper → Nat → Int
  | .rangeSleep mn _, r => mn + (r : Int)
  | .durationSleep d, _ => d

instance {ε α : Type} [DecidableEq ε] [DecidableEq α] : DecidableEq (Except ε α) :=
  fun a b =>
    match a, b with
    | .error e, .error e' =>
      if h : e = e' then .isTrue (by rw [h]) else .isFalse (by simp [h])
    | .ok x, .ok y =>
      if h : x = y then .isTrue (by rw [h]) else .isFalse (by simp [h])
    | .error _, .ok _ => .isFalse (by simp)
    | .ok _, .error _ => .isFalse (by simp)

/-- One scenario step.  The requester package is not among the sources, so
the outcomes of requester.NewRequester(si) and of r.Init(...) for this step
are carried by the step itself (they are functions of the step in the code,
computed by the external collaborator). -/
structure Step where
  id : Nat
  sleep : String
  newRequesterResult : Except String Requester
  initResult : Option String
deriving DecidableEq, Repr

/-- types.Scenario: ordered list of steps. -/
structure Scenario where
  steps : List Step
deriving DecidableEq, Repr

/-- A proxy is used only as an identity (pool key, result attribute). -/
abbrev Proxy := Nat

/-- scenarioItemRequester: pool entry binding a step id, its sleeper (nil
when the step has no sleep spec) and its requester. -/
structure ScenarioItemRequester where
  scenarioItemID : Nat
  sleeper : Option Sleeper
  requester : Requester
deriving DecidableEq, Repr

/-- Association-list lookup, modelling Go map indexing m[k]. -/
def lookupKey {κ α : Type} [DecidableEq κ] (k : κ) : List (κ × α) → Option α
  | [] => none
  | (k', v) :: t => if k' = k then some v else lookupKey k t

/-- Association-list update, modelling Go map assignment m[k] = v. -/
def setKey {κ α : Type} [DecidableEq κ] (k : κ) (v : α) :
    List (κ × α) → List (κ × α)
  | [] => [(k, v)]
  | (k', v') :: t => if k' = k then (k, v) :: t else (k', v') :: setKey k v t

/-- ScenarioService: per-proxy requester pool plus the scenario. -/
structure ScenarioService where
  clients : List (Proxy × List ScenarioItemRequester)
  scenario : Scenario
  debug : Bool
deriving Repr

/-- The entry-building loop of ScenarioService.createRequesters: for each
step, construct the requester (abort on error), append the pool entry, then
initialize the requester (abort on error).  Returns the entries built so
far and the first error, if any. -/
def buildEntries : List Step → List ScenarioItemRequester →
    List ScenarioItemRequester × Option String
  | [], acc => (acc, none)
  | si :: rest, acc =>
    match si.newRequesterResult with
    | .error e => (acc, some e)
    | .ok r =>
      let acc := acc ++ [⟨si.id, newSleeper si.sleep, r⟩]
      match si.initResult with
      | some e => (acc, some e)
      | none => buildEntries rest acc

/-- ScenarioService.createRequesters: resets clients[proxy] to the empty
sequence, then appends one entry per step until the first failure; the
entries built so far stay in the map even when an error is returned. -/
def ScenarioService.createRequesters (s : ScenarioService) (proxy : Proxy) :
    ScenarioService × Option String :=
  let built := buildEntries s.scenario.steps []
  ({ s with clients := setKey proxy built.1 s.clients }, built.2)

/-- ScenarioService.getOrCreateRequesters: returns the cached sequence if
present (with nil error); otherwise builds it via createRequesters, and on
build failure returns the nil sequence together with the error. -/
def ScenarioService.getOrCreateRequesters (s : ScenarioService) (proxy : Proxy) :
    ScenarioService × List ScenarioItemRequester × Option String :=
  match lookupKey proxy s.clients with
  | some rs => (s, rs, none)
  | none =>
    let created := s.createRequesters proxy
    match created.2 with
    | some e => (created.1, [], some e)
    | none => (created.1, (lookupKey proxy created.1.clients).getD [], none)

/-- types.ScenarioResult: start time, proxy identity, ordered step results. -/
structure ScenarioResult where
  startTime : Nat
  proxyAddr : Proxy
  stepResults : List ScenarioStepResult
deriving DecidableEq, Repr

/-- Observable outcome of one ScenarioService.Do invocation: the returned
response (nil on pool failure) and error, the ids of the entries whose
Send() was invoked (in invocation order), and the ids of the entries whose
sleeper's sleep() was invoked (in invocation order). -/
structure DoOutcome where
  response : Option ScenarioResult
  err : Option RequestError
  sent : List Nat
  slept : List Nat
deriving DecidableEq, Repr

/-- The step loop of ScenarioService.Do: sends each entry's requester; a
Proxy- or Intended-kind error is recorded as the returned error, and an
Intended-kind error stops the loop before the step's result is appended;
otherwise the result is appended and, when the entry has a sleeper and the
scenario has more than one step, sleep() is invoked. -/
def doSteps (numSteps : Nat) :
    List ScenarioItemRequester → List ScenarioStepResult → Option RequestError →
    List ScenarioStepResult × Option RequestError × List Nat × List Nat
  | [], acc, err => (acc, err, [], [])
  | sr :: rest, acc, err =>
    let res := sr.requester.sendResult
    let err' := if res.err.type = .errorProxy ∨ res.err.type = .errorIntented
      then some res.err else err
    if res.err.type = .errorIntented then
      (acc, err', [sr.scenarioItemID], [])
    else
      let sleptHere := if sr.sleeper ≠ none ∧ 1 < numSteps
        then [sr.scenarioItemID] else []
      let rest' := doSteps numSteps rest (acc ++ [res]) err'
      (rest'.1, rest'.2.1, sr.scenarioItemID :: rest'.2.2.1,
        sleptHere ++ rest'.2.2.2)

/-- ScenarioService.Do: executes the scenario for the given proxy.  A pool
lookup/build failure short-circuits with a nil response and an
Unknown-kind error; otherwise the step loop runs over the proxy's entries
and the response is stamped with the start time and proxy identity. -/
def ScenarioService.Do (s : ScenarioService) (proxy : Proxy) (startTime : Nat) :
    ScenarioService × DoOutcome :=
  let got := s.getOrCreateRequesters proxy
  match got.2.2 with
  | some e =>
    (got.1, ⟨none, some ⟨.errorUnkown, e⟩, [], []⟩)
  | none =>
    let run := doSteps s.scenario.steps.length got.2.1 [] none
    (got.1, ⟨some ⟨startTime, proxy, run.1⟩, run.2.1, run.2.2.1, run.2.2.2⟩)

/-- The send results the step loop observes, in order: every entry up to
and including the first whose result carries an Intended-kind error. -/
def executedSends : List ScenarioItemRequester → List ScenarioStepResult
  | [] => []
  | e :: t =>
    let r := e.requester.sendResult
    if r.err.type = .errorIntented then [r] else r :: executedSends t

/-- The last error of kind Proxy or Intended among the results observed
during the run, none when no such error occurred. -/
def lastRecordedError (rs : List ScenarioItemRequester) : Option RequestError :=
  (((executedSends rs).map ScenarioStepResult.err).filter
    (fun er => er.type == ErrorType.errorProxy ||
      er.type == ErrorType.errorIntented)).getLast?

/-- The ids after which a sleep happens when every entry of the list runs
to completion: one per entry with a bound sleeper, provided the scenario
has more than one step. -/
def sleepTrace (n : Nat) : List ScenarioItemRequester → List Nat
  | [] => []
  | e :: t =>
    (if e.sleeper ≠ none ∧ 1 < n then [e.scenarioItemID] else []) ++
      sleepTrace n t

/-- The duration struct of stdout.go: a phase's presentation name, its
value in seconds and its fixed presentation rank.  The float32 value is
carried as a rational; printDetails performs no arithmetic on it. -/
structure GoDuration where
  name : String
  duration : Rat
  order : Nat
deriving DecidableEq, Repr

/-- The keyToStr table of stdout.go (each entry's duration field is the
zero value until the rendering loop fills it in). -/
def keyToStrList : List (String × GoDuration) :=
  [("dnsDuration", ⟨"DNS", 0, 1⟩),
   ("connDuration", ⟨"Connection", 0, 2⟩),
   ("tlsDuration", ⟨"TLS", 0, 3⟩),
   ("reqDuration", ⟨"Request Write", 0, 4⟩),
   ("serverProcessDuration", ⟨"Server Processing", 0, 5⟩),
   ("resDuration", ⟨"Response Read", 0, 6⟩),
   ("duration", ⟨"Total", 0, 7⟩)]

/-- Indexing keyToStr[d]: Go map indexing yields the zero duration value
for a key outside the table. -/
def keyToStr (d : String) : GoDuration :=
  (lookupKey d keyToStrList).getD ⟨"", 0, 0⟩

/-- The seven duration-phase keys of the keyToStr table. -/
def knownPhaseKeys : List String := keyToStrList.map Prod.fst

/-- The fixed presentation order of the seven duration phases. -/
def fixedPhaseNames : List String :=
  ["DNS", "Connection", "TLS", "Request Write", "Server Processing",
   "Response Read", "Total"]

/-- Modelled from the spec: ScenarioStepResultSummary (report package; its
definition is not among the sources, only its use in printDetails):
per-step name and counters, running duration averages, status-code
distribution and error distribution; the mappings are association lists
whose list order stands for Go's undefined map iteration order. -/
structure ScenarioStepResultSummary where
  name : String
  successCount : Nat
  failedCount : Nat
  durations : List (String × Rat)
  statusCodeDist : List (Nat × Nat)
  errorDist : List (String × Nat)
deriving DecidableEq, Repr

/-- Modelled from the spec: successPercentage — the truncated integer
percentage of successes among success+failure, 0 when the denominator is
0 (the method's body is not among the sources). -/
def successPercentage (succ failed : Nat) : Nat :=
  if succ + failed = 0 then 0 else succ * 100 / (succ + failed)

/-- Modelled from the spec: failedPercentage, likewise. -/
def failedPercentage (succ failed : Nat) : Nat :=
  if succ + failed = 0 then 0 else failed * 100 / (succ + failed)

/-- The ordering the duration sort establishes: non-decreasing
presentation rank (sort.Slice with an order-comparing less function). -/
def durLE (a b : GoDuration) : Prop := a.order ≤ b.order

instance : DecidableRel durLE := fun a b => Nat.decLe a.order b.order

instance : IsTotal GoDuration durLE := ⟨fun a b => Nat.le_total a.order b.order⟩

instance : IsTrans GoDuration durLE := ⟨fun _ _ _ => Nat.le_trans⟩

/-- Strict presentation-rank order, used to state that the sorted duration
output is unique. -/
def durLT (a b : GoDuration) : Prop := a.order < b.order

instance : IsAntisymm GoDuration durLT :=
  ⟨fun _ _ h h' => absurd (Nat.lt_trans h h') (Nat.lt_irrefl _)⟩

/-- The per-step duration block of printDetails: builds the duration list
from the map in iteration order, then sorts it by presentation rank. -/
def sortDurations (m : List (String × Rat)) : List GoDuration :=
  List.insertionSort durLE
    (m.map (fun p => { keyToStr p.1 with duration := p.2 }))

/-- One rendered step section of the final report.  stepId records the
sorted map key the section is rendered for (it is printed in the header
when the header is present); the header is present only when the report
covers more than one step. -/
structure StepSection where
  stepId : Nat
  header : Option String
  successCount : Nat
  successPct : Nat
  failedCount : Nat
  failedPct : Nat
  durations : List GoDuration
  statusCodeDist : List (Nat × Nat)
  errorDist : List (String × Nat)
deriving DecidableEq, Repr

/-- printDetails: collects and sorts the step ids, then renders one
section per step in ascending id order.  The header line ("k. name",
falling back to "Step k" when the step has no name) appears only when
there is more than one step; the duration phases are sorted by
presentation rank; the status-code and error distributions are rendered in
map iteration order. -/
def printDetails (stepResults : List (Nat × ScenarioStepResultSummary)) :
    List StepSection :=
  let keys := List.insertionSort (· ≤ ·) (stepResults.map Prod.fst)
  keys.filterMap fun k =>
    (lookupKey k stepResults).map fun v =>
      { stepId := k
        header := if 1 < keys.length then
            some (toString k ++ ". " ++
              (if v.name = "" then "Step " ++ toString k else v.name))
          else none
        successCount := v.successCount
        successPct := successPercentage v.successCount v.failedCount
        failedCount := v.failedCount
        failedPct := failedPercentage v.successCount v.failedCount
        durations := sortDurations v.durations
        statusCodeDist := v.statusCodeDist
        errorDist := v.errorDist }

/-- ASCII lower-casing of a header field name, standing in for Go's
canonical MIME key normalization: http.Header.Get matches field names
case-insensitively. -/
def goLower (s : String) : String := String.mk (s.data.map Char.toLower)

/-- http.Header.Get: the first value of the (case-insensitively) matching
field, "" when the field is absent. -/
def headerGet (h : List (String × List String)) (key : String) : String :=
  match h.find? (fun p => goLower p.1 == goLower key) with
  | some (_, v :: _) => v
  | _ => ""

/-- The Go type assertion v.(http.Header) on a DebugInfo entry: panics
(modelled as an error value) unless the dynamic type is http.Header; a
missing key yields the nil interface, which also panics. -/
def assertHeader : Option DynVal → Except String (List (String × List String))
  | some (.header h) => .ok h
  | _ => .error "interface conversion to http.Header failed"

/-- The text json.MarshalIndent renders a body to.  MarshalIndent never
panics and its error value is discarded by printBody, so only the
function's totality matters to the claims; the exact text is abstracted. -/
def jsonMarshalIndent : DynVal → String
  | .str s => "\x22" ++ s ++ "\x22"
  | .header _ => "(json object)"
  | .other => "null"

/-- printBody: pretty-prints the body when the content type contains
application/json; otherwise asserts the body to be a string — a Go panic,
modelled as an error value, when it is not. -/
def printBody (contentType : String) (body : DynVal) : Except String String :=
  if goContains contentType "application/json" then
    .ok (jsonMarshalIndent body)
  else
    match body with
    | .str s => .ok s
    | _ => .error "interface conversion to string failed"

/-- The body of printInDebugMode for one StepResult: renders the request
transcript — asserting DebugInfo["requestHeaders"] to http.Header to read
the content type, then printing the request body — and, when the step did
not error, the response transcript — asserting DebugInfo["responseHeaders"]
and printing the response body.  A Go panic is an error value. -/
def printDebugStep (sr : ScenarioStepResult) : Except String String :=
  let vi := ScenarioStepResultToVerboseHttpRequestInfo sr
  match assertHeader (lookupKey "requestHeaders" sr.debugInfo) with
  | .error e => .error e
  | .ok reqH =>
    match printBody (headerGet reqH "content-type") vi.request.body with
    | .error e => .error e
    | .ok reqBody =>
      if vi.error ≠ "" then
        .ok (vi.request.url ++ " " ++ vi.request.method ++ " " ++ reqBody ++
          " Error: " ++ vi.error)
      else
        match assertHeader (lookupKey "responseHeaders" sr.debugInfo) with
        | .error e => .error e
        | .ok resH =>
          match printBody (headerGet resH "content-type") vi.response.body with
          | .error e => .error e
          | .ok resBody =>
            .ok (vi.request.url ++ " " ++ vi.request.method ++ " " ++
              reqBody ++ " " ++ toString vi.response.statusCode ++ " " ++
              resBody)

/-- printInDebugMode: the debug transcript over the step results of the
single expected ScenarioResult; the first panicking step aborts it. -/
def printInDebugMode : List ScenarioStepResult → Except String (List String)
  | [] => .ok []
  | sr :: rest =>
    match printDebugStep sr with
    | .error e => .error e
    | .ok s =>
      match printInDebugMode rest with
      | .error e => .error e
      | .ok t => .ok (s :: t)

/-- The precondition claimed for the debug transcript of one StepResult:
DebugInfo carries a requestHeaders entry of dynamic type http.Header (and,
when the step did not error, a responseHeaders entry likewise), and each
printed body is a string whenever its content type does not contain
application/json. -/
def debugPre (sr : ScenarioStepResult) : Prop :=
  (∃ h, lookupKey "requestHeaders" sr.debugInfo = some (.header h) ∧
    (goContains (headerGet h "content-type") "application/json" = true ∨
     ∃ s, sr.verbose.request.body = .str s)) ∧
  (sr.verbose.error ≠ "" ∨
    ∃ h, lookupKey "responseHeaders" sr.debugInfo = some (.header h) ∧
      (goContains (headerGet h "content-type") "application/json" = true ∨
       ∃ s, sr.verbose.response.body = .str s))

/-- The pool entries a successful build produces for a scenario whose
every step's requester constructor yields f applied to the step: one entry
per step, index-aligned with the steps. -/
def poolOf (f : Step → Requester) (steps : List Step) :
    List ScenarioItemRequester :=
  steps.map (fun si => ⟨si.id, newSleeper si.sleep, f si⟩)

/-- Transcript view with no data, used by the concrete runs below. -/
def emptyVerbose : VerboseHttpRequestInfo :=
  ⟨0, "", ⟨"", "", [], .other⟩, "", ⟨0, [], .other⟩⟩

/-- A step result with the given id and error kind. -/
def mkRes (id : Nat) (t : ErrorType) : ScenarioStepResult :=
  ⟨id, ⟨t, ""⟩, [], emptyVerbose⟩

/-- A step whose requester builds, initializes, and sends mkRes id t. -/
def mkStep (id : Nat) (sleep : String) (t : ErrorType) : Step :=
  ⟨id, sleep, .ok ⟨mkRes id t⟩, none⟩

/-- The pool entry mkStep id sleep t builds. -/
def mkEntry (id : Nat) (sleep : String) (t : ErrorType) : ScenarioItemRequester :=
  ⟨id, newSleeper sleep, ⟨mkRes id t⟩⟩

/-- Two-step scenario whose first step reports an Intended-kind error,
with the proxy's pool already cached. -/
def svcIntendedFirst : ScenarioService :=
  ⟨[(0, [mkEntry 1 "" .errorIntented, mkEntry 2 "" .errorOther])],
   ⟨[mkStep 1 "" .errorIntented, mkStep 2 "" .errorOther]⟩, false⟩

/-- Two-step scenario whose second step reports an Intended-kind error. -/
def svcIntendedSecond : ScenarioService :=
  ⟨[(0, [mkEntry 1 "" .errorOther, mkEntry 2 "" .errorIntented])],
   ⟨[mkStep 1 "" .errorOther, mkStep 2 "" .errorIntented]⟩, false⟩

/-- Two-step scenario with an empty pool whose build succeeds. -/
def svcFreshOk : ScenarioService :=
  ⟨[], ⟨[mkStep 1 "" .errorOther, mkStep 2 "" .errorOther]⟩, false⟩

/-- Two-step scenario, both steps with sleep specs, both succeeding. -/
def svcSleepers : ScenarioService :=
  ⟨[(0, [mkEntry 1 "100" .errorOther, mkEntry 2 "100" .errorOther])],
   ⟨[mkStep 1 "100" .errorOther, mkStep 2 "100" .errorOther]⟩, false⟩

/-- Two-step scenario with an empty pool whose build fails at step 2. -/
def svcBuildFails : ScenarioService :=
  ⟨[], ⟨[mkStep 1 "" .errorOther, ⟨2, "", .error "boom", none⟩]⟩, false⟩

/-- Two-step scenario whose first step reports a Proxy-kind error and
whose second step succeeds. -/
def svcProxyThenOk : ScenarioService :=
  ⟨[(0, [mkEntry 1 "" .errorProxy, mkEntry 2 "" .errorOther])],
   ⟨[mkStep 1 "" .errorProxy, mkStep 2 "" .errorOther]⟩, false⟩

/-- A one-entry aggregated step-result map. -/
def singleStepReport : List (Nat × ScenarioStepResultSummary) :=
  [(1, ⟨"", 3, 0, [], [(200, 3)], []⟩)]

/-- A two-entry aggregated step-result map with step 2 first (one map
iteration order) and step 1's duration phases inserted Total-first. -/
def twoStepReportA : List (Nat × ScenarioStepResultSummary) :=
  [(2, ⟨"", 1, 0, [("tlsDuration", 1/20)], [], []⟩),
   (1, ⟨"first", 2, 1, [("duration", 3/10), ("dnsDuration", 1/10)],
     [(200, 2)], [("timeout", 1)]⟩)]

/-- The same aggregated map with the steps enumerated in the other order. -/
def twoStepReportB : List (Nat × ScenarioStepResultSummary) :=
  [(1, ⟨"first", 2, 1, [("duration", 3/10), ("dnsDuration", 1/10)],
     [(200, 2)], [("timeout", 1)]⟩),
   (2, ⟨"", 1, 0, [("tlsDuration", 1/20)], [], []⟩)]

/-- The presentation name a phase of the given rank carries. -/
def nameOfOrder : Nat → String
  | 1 => "DNS"
  | 2 => "Connection"
  | 3 => "TLS"
  | 4 => "Request Write"
  | 5 => "Server Processing"
  | 6 => "Response Read"
  | 7 => "Total"
  | _ => ""

@[simp] theorem optionSomeOr {α : Type} (a : α) (x : Option α) :
    (some a).or x = some a := rfl

@[simp] theorem optionNoneOr {α : Type} (x : Option α) :
    (Option.none).or x = x := rfl

theorem optionOrAssoc {α : Type} (a b c : Option α) :
    (a.or b).or c = a.or (b.or c) := by
  cases a <;> rfl

theorem getLast?_cons_or {α : Type} (a : α) (l : List α) :
    (a :: l).getLast? = l.getLast?.or (some a) := by
  induction l generalizing a with
  | nil => simp
  | cons b t ih =>
    rw [List.getLast?_cons_cons, ih b, optionOrAssoc, optionSomeOr]

theorem doSteps_err (n : Nat) (rs : List ScenarioItemRequester)
    (acc : List ScenarioStepResult) (err : Option RequestError) :
    (doSteps n rs acc err).2.1 = (lastRecordedError rs).or err := by
  induction rs generalizing acc err with
  | nil => simp [doSteps, lastRecordedError, executedSends]
  | cons e t ih =>
    by_cases hi : e.requester.sendResult.err.type = .errorIntented
    · simp [doSteps, lastRecordedError, executedSends, hi, getLast?_cons_or]
    · by_cases hp : e.requester.sendResult.err.type = .errorProxy
      · simp [doSteps, lastRecordedError, executedSends, hi, hp, ih,
          getLast?_cons_or, optionOrAssoc]
      · simp [doSteps, lastRecordedError, executedSends, hi, hp, ih]

theorem doSteps_no_intended (n : Nat) (rs : List ScenarioItemRequester)
    (acc : List ScenarioStepResult) (err : Option RequestError)
    (h : ∀ e ∈ rs, e.requester.sendResult.err.type ≠ .errorIntented) :
    doSteps n rs acc err =
      (acc ++ rs.map (fun e => e.requester.sendResult),
       (lastRecordedError rs).or err,
       rs.map (fun e => e.scenarioItemID),
       sleepTrace n rs) := by
  induction rs generalizing acc err with
  | nil => simp [doSteps, lastRecordedError, executedSends, sleepTrace]
  | cons e t ih =>
    have hi := h e (by simp)
    have ht : ∀ x ∈ t, x.requester.sendResult.err.type ≠ .errorIntented :=
      fun x hx => h x (by simp [hx])
    by_cases hp : e.requester.sendResult.err.type = .errorProxy
    · simp [doSteps, lastRecordedError, executedSends, sleepTrace, hi, hp,
        ih _ _ ht, getLast?_cons_or, optionOrAssoc]
    · simp [doSteps, lastRecordedError, executedSends, sleepTrace, hi, hp,
        ih _ _ ht]

theorem doSteps_intended (n : Nat) (pre : List ScenarioItemRequester)
    (bad : ScenarioItemRequester) (post : List ScenarioItemRequester)
    (acc : List ScenarioStepResult) (err : Option RequestError)
    (hpre : ∀ e ∈ pre, e.requester.sendResult.err.type ≠ .errorIntented)
    (hbad : bad.requester.sendResult.err.type = .errorIntented) :
    doSteps n (pre ++ bad :: post) acc err =
      (acc ++ pre.map (fun e => e.requester.sendResult),
       some bad.requester.sendResult.err,
       pre.map (fun e => e.scenarioItemID) ++ [bad.scenarioItemID],
       sleepTrace n pre) := by
  induction pre generalizing acc err with
  | nil => simp [doSteps, sleepTrace, hbad]
  | cons e t ih =>
    have hi := hpre e (by simp)
    have ht : ∀ x ∈ t, x.requester.sendResult.err.type ≠ .errorIntented :=
      fun x hx => hpre x (by simp [hx])
    by_cases hp : e.requester.sendResult.err.type = .errorProxy
    · simp [doSteps, sleepTrace, hi, hp, ih _ _ ht]
    · simp [doSteps, sleepTrace, hi, hp, ih _ _ ht]

theorem lookupKey_setKey {κ α : Type} [DecidableEq κ] (k : κ) (v : α)
    (l : List (κ × α)) : lookupKey k (setKey k v l) = some v := by
  induction l with
  | nil => simp [setKey, lookupKey]
  | cons p t ih =>
    obtain ⟨k', v'⟩ := p
    by_cases h : k' = k
    · simp [setKey, lookupKey, h]
    · simp [setKey, lookupKey, h, ih]

theorem buildEntries_ok (f : Step → Requester) (steps : List Step)
    (acc : List ScenarioItemRequester)
    (hok : ∀ si ∈ steps, si.newRequesterResult = .ok (f si))
    (hinit : ∀ si ∈ steps, si.initResult = none) :
    buildEntries steps acc = (acc ++ poolOf f steps, none) := by
  induction steps generalizing acc with
  | nil => simp [buildEntries, poolOf]
  | cons si t ih =>
    have h1 := hok si (by simp)
    have h2 := hinit si (by simp)
    have ht1 : ∀ x ∈ t, x.newRequesterResult = .ok (f x) :=
      fun x hx => hok x (by simp [hx])
    have ht2 : ∀ x ∈ t, x.initResult = none :=
      fun x hx => hinit x (by simp [hx])
    simp [buildEntries, poolOf, h1, h2, ih _ ht1 ht2]

theorem getOrCreateRequesters_cached (s : ScenarioService) (proxy : Proxy)
    (rs : List ScenarioItemRequester)
    (hlk : lookupKey proxy s.clients = some rs) :
    s.getOrCreateRequesters proxy = (s, rs, none) := by
  simp [ScenarioService.getOrCreateRequesters, hlk]

@[simp] theorem optionOrNone {α : Type} (x : Option α) :
    x.or Option.none = x := by
  cases x <;> rfl

/-- C1 (counterexample): in a concrete run whose first step reports an
Intended-kind error (k = 1), step 1 is the only step sent and the Intended
error is returned, yet the ScenarioResult carries 0 StepResults, not k =
1: the failing step's StepResult is not appended. -/
theorem c1_counterexample :
    (svcIntendedFirst.Do 0 0).2.sent = [1] ∧
    (svcIntendedFirst.Do 0 0).2.err = some ⟨.errorIntented, ""⟩ ∧
    ((svcIntendedFirst.Do 0 0).2.response.map
      (fun r => r.stepResults.length)) = some 0 ∧
    (0 : Nat) ≠ 1 := by
  decide

/-- C1 (amended): if the engine's run encounters an Intended-kind error on
step k (1-indexed), the returned ScenarioResult contains exactly the k-1
StepResults of the preceding steps — the failing step's StepResult is not
appended — and no step beyond k executes. -/
theorem do_intended_truncates (s : ScenarioService) (proxy : Proxy) (t : Nat)
    (pre : List ScenarioItemRequester) (bad : ScenarioItemRequester)
    (post : List ScenarioItemRequester)
    (hlk : lookupKey proxy s.clients = some (pre ++ bad :: post))
    (hpre : ∀ e ∈ pre, e.requester.sendResult.err.type ≠ .errorIntented)
    (hbad : bad.requester.sendResult.err.type = .errorIntented) :
    ∃ r, (s.Do proxy t).2.response = some r ∧
      r.stepResults = pre.map (fun e => e.requester.sendResult) ∧
      r.stepResults.length = pre.length ∧
      (s.Do proxy t).2.sent =
        pre.map (fun e => e.scenarioItemID) ++ [bad.scenarioItemID] := by
  have hget := getOrCreateRequesters_cached s proxy _ hlk
  refine ⟨⟨t, proxy, pre.map (fun e => e.requester.sendResult)⟩, ?_,
    rfl, by simp, ?_⟩ <;>
    simp [ScenarioService.Do, hget,
      doSteps_intended s.scenario.steps.length pre bad post [] none hpre hbad]

/-- C1 (witness for the amended claim): a run hitting an Intended error on
step 2 returns exactly step 1's StepResult and sends only steps 1 and 2. -/
theorem do_intended_truncates_witness :
    ∃ r, (svcIntendedSecond.Do 0 7).2.response = some r ∧
      r.stepResults = List.map (fun e => e.requester.sendResult)
        [mkEntry 1 "" .errorOther] ∧
      r.stepResults.length = [mkEntry 1 "" .errorOther].length ∧
      (svcIntendedSecond.Do 0 7).2.sent =
        List.map (fun e => e.scenarioItemID) [mkEntry 1 "" .errorOther] ++
          [(mkEntry 2 "" .errorIntented).scenarioItemID] :=
  do_intended_truncates svcIntendedSecond 0 7 [mkEntry 1 "" .errorOther]
    (mkEntry 2 "" .errorIntented) [] (by decide) (by decide) (by decide)

/-- C2: for a proxy whose pool builds successfully, a run in which no step
reports an Intended-kind error (steps reporting Proxy-kind errors
included) returns exactly one StepResult per scenario step, in scenario
step order, with no reordering or duplication. -/
theorem do_no_intended_all_steps (s : ScenarioService) (proxy : Proxy)
    (t : Nat) (f : Step → Requester)
    (hlk : lookupKey proxy s.clients = none)
    (hok : ∀ si ∈ s.scenario.steps, si.newRequesterResult = .ok (f si))
    (hinit : ∀ si ∈ s.scenario.steps, si.initResult = none)
    (hni : ∀ si ∈ s.scenario.steps,
      (f si).sendResult.err.type ≠ .errorIntented) :
    ∃ r, (s.Do proxy t).2.response = some r ∧
      r.stepResults = s.scenario.steps.map (fun si => (f si).sendResult) ∧
      r.stepResults.length = s.scenario.steps.length := by
  have hbuild := buildEntries_ok f s.scenario.steps [] hok hinit
  have hgot : s.getOrCreateRequesters proxy =
      ({ s with clients := setKey proxy (poolOf f s.scenario.steps) s.clients },
       poolOf f s.scenario.steps, none) := by
    simp [ScenarioService.getOrCreateRequesters,
      ScenarioService.createRequesters, hlk, hbuild, lookupKey_setKey]
  have hsteps : ∀ e ∈ poolOf f s.scenario.steps,
      e.requester.sendResult.err.type ≠ .errorIntented := by
    intro e he
    simp only [poolOf, List.mem_map] at he
    obtain ⟨si, hsi, rfl⟩ := he
    exact hni si hsi
  have hds := doSteps_no_intended s.scenario.steps.length
    (poolOf f s.scenario.steps) [] none hsteps
  refine ⟨⟨t, proxy,
    s.scenario.steps.map (fun si => (f si).sendResult)⟩, ?_, rfl, by simp⟩
  simp only [ScenarioService.Do, hgot]
  rw [hds]
  simp [poolOf, List.map_map, Function.comp]

/-- C2 (witness): a concrete two-step run with no Intended error returns
both StepResults. -/
theorem do_no_intended_all_steps_witness :
    ∃ r, (svcFreshOk.Do 0 3).2.response = some r ∧
      r.stepResults.length = 2 := by
  obtain ⟨r, h1, _, h3⟩ := do_no_intended_all_steps svcFreshOk 0 3
    (fun si => ⟨mkRes si.id .errorOther⟩)
    (by decide) (by decide) (by decide) (by decide)
  exact ⟨r, h1, by rw [h3]; rfl⟩

/-- C3 (code evaluation at the failing input): with two steps that both
carry sleep specs and both succeed, the run's sleep trace is [1, 2] — the
sleeper fires after step 2 even though step 2 is the last step of the
scenario, contradicting the claim (and the code's own comment, which says
the sleep happens before running the next step). -/
theorem sleep_fires_after_last_step :
    (svcSleepers.Do 0 0).2.slept = [1, 2] ∧
    (svcSleepers.scenario.steps.map Step.id).getLast? = some 2 := by
  decide

/-- C4 (counterexample): a proxy whose pool build fails at step 2 ("boom"
from the requester constructor): the failing call surfaces the error, but
a second getOrCreateRequesters call for the same proxy returns the cached
partial one-entry sequence (the scenario has 2 steps) with no error, in
contradiction with the claim. -/
theorem getOrCreateRequesters_counterexample :
    (svcBuildFails.getOrCreateRequesters 0).2.2 = some "boom" ∧
    ((svcBuildFails.getOrCreateRequesters 0).1.getOrCreateRequesters 0).2 =
      ([mkEntry 1 "" .errorOther], none) ∧
    svcBuildFails.scenario.steps.length = 2 := by
  decide

/-- C4 (amended): getOrCreateRequesters returns the cached sequence with
no error when one is present; otherwise it builds under the lock, and a
build failure is surfaced to that caller (with a nil sequence) — but the
partially built sequence stays cached, so every later call for the same
proxy returns the partial requester sequence with no error. -/
theorem getOrCreateRequesters_amended :
    (∀ (s : ScenarioService) (proxy : Proxy)
        (rs : List ScenarioItemRequester),
      lookupKey proxy s.clients = some rs →
        s.getOrCreateRequesters proxy = (s, rs, none)) ∧
    (∀ (s : ScenarioService) (proxy : Proxy) (e : String),
      lookupKey proxy s.clients = none →
      (buildEntries s.scenario.steps []).2 = some e →
        (s.getOrCreateRequesters proxy).2 = ([], some e) ∧
        ((s.getOrCreateRequesters proxy).1.getOrCreateRequesters proxy).2 =
          ((buildEntries s.scenario.steps []).1, none)) := by
  constructor
  · exact fun s proxy rs hlk => getOrCreateRequesters_cached s proxy rs hlk
  · intro s proxy e hlk hfail
    have h1 : s.getOrCreateRequesters proxy =
        ({ s with clients := setKey proxy (buildEntries s.scenario.steps []).1 s.clients },
         [], some e) := by
      simp [ScenarioService.getOrCreateRequesters,
        ScenarioService.createRequesters, hlk, hfail]
    rw [h1]
    exact ⟨rfl, by
      simp [ScenarioService.getOrCreateRequesters, lookupKey_setKey]⟩

/-- C4 (witness): the cache-hit branch at a concrete pool, and the
failing-build branch at a concrete proxy. -/
theorem getOrCreateRequesters_amended_witness :
    svcIntendedFirst.getOrCreateRequesters 0 =
      (svcIntendedFirst,
       [mkEntry 1 "" .errorIntented, mkEntry 2 "" .errorOther], none) ∧
    (svcBuildFails.getOrCreateRequesters 0).2 = ([], some "boom") := by
  have h := getOrCreateRequesters_amended
  exact ⟨h.1 svcIntendedFirst 0 _ (by decide),
    (h.2 svcBuildFails 0 "boom" (by decide) (by decide)).1⟩

/-- C5: when the pool lookup/build inside Do fails, Do short-circuits with
a nil response and an Unknown-kind RequestError carrying the build error's
text, and no step executes (and no sleep fires). -/
theorem do_pool_failure_short_circuits (s : ScenarioService) (proxy : Proxy)
    (t : Nat) (e : String)
    (hlk : lookupKey proxy s.clients = none)
    (hfail : (buildEntries s.scenario.steps []).2 = some e) :
    (s.Do proxy t).2 = ⟨none, some ⟨.errorUnkown, e⟩, [], []⟩ := by
  simp [ScenarioService.Do, ScenarioService.getOrCreateRequesters,
    ScenarioService.createRequesters, hlk, hfail]

/-- C5 (witness): the short-circuit at a concrete failing pool build. -/
theorem do_pool_failure_short_circuits_witness :
    (svcBuildFails.Do 0 4).2 = ⟨none, some ⟨.errorUnkown, "boom"⟩, [], []⟩ :=
  do_pool_failure_short_circuits svcBuildFails 0 4 "boom"
    (by decide) (by decide)

/-- C6: a run that executes steps stamps the given start time and proxy
identity on the ScenarioResult, and returns the last Proxy- or
Intended-kind error observed during the run (none when no such error
occurred); a later success or other-kind failure does not clear it, since
the returned error is exactly the last element of the observed Proxy- or
Intended-kind errors. -/
theorem do_stamps_and_last_error (s : ScenarioService) (proxy : Proxy)
    (t : Nat) (rs : List ScenarioItemRequester)
    (hlk : lookupKey proxy s.clients = some rs) :
    ∃ r, (s.Do proxy t).2.response = some r ∧
      r.startTime = t ∧ r.proxyAddr = proxy ∧
      (s.Do proxy t).2.err = lastRecordedError rs := by
  have hget := getOrCreateRequesters_cached s proxy _ hlk
  refine ⟨⟨t, proxy, (doSteps s.scenario.steps.length rs [] Option.none).1⟩,
    ?_, rfl, rfl, ?_⟩ <;>
    simp [ScenarioService.Do, hget, doSteps_err]

/-- C6 (witness): a run with a Proxy error on step 1 and a success on step
2 stamps start time 9 and proxy 0 and still returns the Proxy error. -/
theorem do_stamps_and_last_error_witness :
    ∃ r, (svcProxyThenOk.Do 0 9).2.response = some r ∧
      r.startTime = 9 ∧ r.proxyAddr = 0 ∧
      (svcProxyThenOk.Do 0 9).2.err = lastRecordedError
        [mkEntry 1 "" .errorProxy, mkEntry 2 "" .errorOther] :=
  do_stamps_and_last_error svcProxyThenOk 0 9
    [mkEntry 1 "" .errorProxy, mkEntry 2 "" .errorOther] (by decide)

/-- C7: the Range sleeper built from "500-100" is identical to the one
built from "100-500" — the factory swaps min and max when min > max — and
each sleep() invocation's blocking duration, as a function of the uniform
draw r of rand.Intn(max-min+1), ranges exactly over [100, 500]
milliseconds: every draw lands in the interval, and every millisecond
value of the interval arises from exactly one draw (so the duration is
uniform on [min, max] inclusive). -/
theorem range_sleep_swap_uniform :
    newSleeper "500-100" = newSleeper "100-500" ∧
    newSleeper "500-100" = some (.rangeSleep 100 500) ∧
    (∀ r : Nat, r < 500 - 100 + 1 →
      100 ≤ (Sleeper.rangeSleep 100 500).sleepDur r ∧
      (Sleeper.rangeSleep 100 500).sleepDur r ≤ 500) ∧
    (∀ d : Int, 100 ≤ d → d ≤ 500 →
      ∃! r : Nat, r < 500 - 100 + 1 ∧
        (Sleeper.rangeSleep 100 500).sleepDur r = d) := by
  refine ⟨by decide, by decide, ?_, ?_⟩
  · intro r hr
    constructor
    · simp [Sleeper.sleepDur]
    · simp only [Sleeper.sleepDur]
      omega
  · intro d h1 h2
    refine ⟨(d - 100).toNat, ⟨by omega, ?_⟩, ?_⟩
    · simp only [Sleeper.sleepDur]
      omega
    · intro r hr
      obtain ⟨hr1, hr2⟩ := hr
      simp only [Sleeper.sleepDur] at hr2
      omega

/-- C7 (witness): the draw 7 yields a duration inside [100, 500]. -/
theorem range_sleep_swap_uniform_witness :
    100 ≤ (Sleeper.rangeSleep 100 500).sleepDur 7 ∧
    (Sleeper.rangeSleep 100 500).sleepDur 7 ≤ 500 :=
  range_sleep_swap_uniform.2.2.1 7 (by decide)

/-- C9: when the aggregated map covers exactly one step, the rendered
section carries no header line (the single section is the whole report);
when it covers more than one step, every section carries its header. -/
theorem printDetails_header_iff (l : List (Nat × ScenarioStepResultSummary)) :
    (l.length = 1 → ∀ sec ∈ printDetails l, sec.header = none) ∧
    (1 < l.length → ∀ sec ∈ printDetails l, sec.header.isSome) := by
  have hlen : (List.insertionSort (· ≤ ·) (l.map Prod.fst)).length = l.length := by
    rw [(List.perm_insertionSort _ _).length_eq, List.length_map]
  constructor
  · intro h1 sec hsec
    simp only [printDetails, List.mem_filterMap] at hsec
    obtain ⟨k, _, hv⟩ := hsec
    obtain ⟨v, _, rfl⟩ := Option.map_eq_some'.mp hv
    simp [hlen, h1]
  · intro h1 sec hsec
    simp only [printDetails, List.mem_filterMap] at hsec
    obtain ⟨k, _, hv⟩ := hsec
    obtain ⟨v, _, rfl⟩ := Option.map_eq_some'.mp hv
    simp [hlen, h1]

/-- C9 (witness): a one-step report renders without headers; a two-step
report renders every section with a header. -/
theorem printDetails_header_iff_witness :
    (∀ sec ∈ printDetails singleStepReport, sec.header = none) ∧
    (∀ sec ∈ printDetails twoStepReportA, sec.header.isSome) :=
  ⟨(printDetails_header_iff singleStepReport).1 (by decide),
   (printDetails_header_iff twoStepReportA).2 (by decide)⟩

theorem lookupKey_perm {κ α : Type} [DecidableEq κ] (k : κ)
    {l₁ l₂ : List (κ × α)} (hp : l₁.Perm l₂) :
    (l₁.map Prod.fst).Nodup → lookupKey k l₁ = lookupKey k l₂ := by
  induction hp with
  | nil => intro _; rfl
  | cons x p ih =>
    intro hnd
    simp only [List.map_cons, List.nodup_cons] at hnd
    simp only [lookupKey]
    by_cases hx : x.1 = k
    · simp [hx]
    · simp [hx, ih hnd.2]
  | swap x y t =>
    intro hnd
    simp only [List.map_cons, List.nodup_cons, List.mem_cons] at hnd
    have hxy : y.1 ≠ x.1 := fun h => hnd.1 (Or.inl h)
    simp only [lookupKey]
    by_cases h1 : y.1 = k
    · have h2 : x.1 ≠ k := fun h => hxy (h1.trans h.symm)
      simp [h1, h2]
    · by_cases h2 : x.1 = k
      · simp [h1, h2]
      · simp [h1, h2]
  | trans p₁ p₂ ih₁ ih₂ =>
    intro hnd
    have hnd₂ := ((p₁.map Prod.fst).nodup_iff).mp hnd
    rw [ih₁ hnd, ih₂ hnd₂]

theorem lookupKey_mem {κ α : Type} [DecidableEq κ] {k : κ} {v : α} :
    ∀ {l : List (κ × α)}, lookupKey k l = some v → (k, v) ∈ l := by
  intro l
  induction l with
  | nil => intro h; simp [lookupKey] at h
  | cons p t ih =>
    intro h
    simp only [lookupKey] at h
    by_cases hp : p.1 = k
    · rw [if_pos hp] at h
      have hv : v = p.2 := (Option.some_inj.mp h).symm
      subst hv
      subst hp
      exact List.mem_cons.mpr (Or.inl rfl)
    · rw [if_neg hp] at h
      exact List.mem_cons.mpr (Or.inr (ih h))

theorem sublist_of_subset_sorted : ∀ {ys xs : List Nat},
    xs.Pairwise (· < ·) → ys.Pairwise (· < ·) →
    (∀ x ∈ xs, x ∈ ys) → xs.Sublist ys := by
  intro ys
  induction ys with
  | nil =>
    intro xs _ _ hsub
    cases xs with
    | nil => exact List.nil_sublist _
    | cons a t => exact absurd (hsub a (by simp)) (by simp)
  | cons y yt ih =>
    intro xs hxs hys hsub
    cases xs with
    | nil => exact List.nil_sublist _
    | cons x xt =>
      have hxmem := hsub x (by simp)
      by_cases hxy : x = y
      · subst hxy
        refine List.Sublist.cons₂ x (ih (List.pairwise_cons.mp hxs).2
          (List.pairwise_cons.mp hys).2 ?_)
        intro z hz
        have h1 : x < z := (List.pairwise_cons.mp hxs).1 z hz
        have h2 := hsub z (List.mem_cons_of_mem x hz)
        rcases List.mem_cons.mp h2 with h | h
        · omega
        · exact h
      · have hxyt : x ∈ yt := by
          rcases List.mem_cons.mp hxmem with h | h
          · exact absurd h hxy
          · exact h
        refine List.Sublist.cons y (ih hxs (List.pairwise_cons.mp hys).2 ?_)
        intro z hz
        have h2 := hsub z hz
        rcases List.mem_cons.mp h2 with h | h
        · subst h
          have h3 : z < x := (List.pairwise_cons.mp hys).1 x hxyt
          rcases List.mem_cons.mp hz with h4 | h4
          · omega
          · have h5 : x < z := (List.pairwise_cons.mp hxs).1 z h4
            omega
        · exact h

theorem map_filterMap_sublist {α β : Type} (f : α → Option β) (g : β → α)
    (l : List α) (hfg : ∀ a b, f a = some b → g b = a) :
    ((l.filterMap f).map g).Sublist l := by
  induction l with
  | nil => simp
  | cons a t ih =>
    rcases hfa : f a with _ | b
    · simp only [List.filterMap_cons, hfa]
      exact ih.cons a
    · simp only [List.filterMap_cons, hfa, List.map_cons]
      rw [hfg a b hfa]
      exact ih.cons₂ a

theorem sortDurations_orders_nodup (m : List (String × Rat))
    (hk : ∀ q ∈ m, q.1 ∈ knownPhaseKeys) (hnd : (m.map Prod.fst).Nodup) :
    ((sortDurations m).map GoDuration.order).Nodup := by
  have hinj : ∀ a ∈ knownPhaseKeys, ∀ b ∈ knownPhaseKeys,
      (keyToStr a).order = (keyToStr b).order → a = b := by decide
  have hmem : ∀ x ∈ m.map Prod.fst, x ∈ knownPhaseKeys := by
    intro x hx
    obtain ⟨q, hq, rfl⟩ := List.mem_map.mp hx
    exact hk q hq
  have h1 : ((m.map Prod.fst).map (fun k => (keyToStr k).order)).Nodup :=
    hnd.map_on (fun x hx y hy h => hinj x (hmem x hx) y (hmem y hy) h)
  have h2 : (m.map (fun p => (keyToStr p.1).order)).Nodup := by
    rw [List.map_map] at h1
    exact h1
  have hperm : ((sortDurations m).map GoDuration.order).Perm
      (m.map (fun p => (keyToStr p.1).order)) := by
    have := (List.perm_insertionSort durLE
      (m.map (fun p => { keyToStr p.1 with duration := p.2 }))).map
        GoDuration.order
    simpa [sortDurations, List.map_map, Function.comp] using this
  exact hperm.nodup_iff.mpr h2

theorem sortDurations_strict (m : List (String × Rat))
    (hk : ∀ q ∈ m, q.1 ∈ knownPhaseKeys) (hnd : (m.map Prod.fst).Nodup) :
    (sortDurations m).Pairwise durLT := by
  have hs : (sortDurations m).Pairwise durLE :=
    List.sorted_insertionSort durLE _
  have hne : (sortDurations m).Pairwise (fun a b => a.order ≠ b.order) :=
    List.pairwise_map.mp (sortDurations_orders_nodup m hk hnd)
  exact (hs.and hne).imp (fun h => Nat.lt_of_le_of_ne h.1 h.2)

theorem sortDurations_perm (m₁ m₂ : List (String × Rat)) (hp : m₁.Perm m₂)
    (hnd : (m₁.map Prod.fst).Nodup) (hk : ∀ q ∈ m₁, q.1 ∈ knownPhaseKeys) :
    sortDurations m₁ = sortDurations m₂ := by
  have hnd₂ : (m₂.map Prod.fst).Nodup := ((hp.map Prod.fst).nodup_iff).mp hnd
  have hk₂ : ∀ q ∈ m₂, q.1 ∈ knownPhaseKeys :=
    fun q hq => hk q (hp.mem_iff.mpr hq)
  refine List.eq_of_perm_of_sorted (r := durLT) ?_
    (sortDurations_strict m₁ hk hnd) (sortDurations_strict m₂ hk₂ hnd₂)
  exact (List.perm_insertionSort durLE _).trans
    ((hp.map _).trans (List.perm_insertionSort durLE _).symm)

theorem sortDurations_names_sublist (m : List (String × Rat))
    (hk : ∀ q ∈ m, q.1 ∈ knownPhaseKeys) (hnd : (m.map Prod.fst).Nodup) :
    ((sortDurations m).map GoDuration.name).Sublist fixedPhaseNames := by
  have hstrict := sortDurations_strict m hk hnd
  have hfact : ∀ a ∈ knownPhaseKeys,
      (keyToStr a).name = nameOfOrder (keyToStr a).order ∧
      (keyToStr a).order ∈ [1, 2, 3, 4, 5, 6, 7] := by decide
  have hmem : ∀ d ∈ sortDurations m,
      d.name = nameOfOrder d.order ∧ d.order ∈ [1, 2, 3, 4, 5, 6, 7] := by
    intro d hd
    have hd' : d ∈ m.map (fun p => { keyToStr p.1 with duration := p.2 }) := by
      simpa [sortDurations] using hd
    obtain ⟨p, hpm, rfl⟩ := List.mem_map.mp hd'
    simpa using hfact p.1 (hk p hpm)
  have horder : ((sortDurations m).map GoDuration.order).Sublist
      [1, 2, 3, 4, 5, 6, 7] := by
    refine sublist_of_subset_sorted (List.pairwise_map.mpr hstrict)
      (by decide) ?_
    intro x hx
    obtain ⟨d, hd, rfl⟩ := List.mem_map.mp hx
    exact (hmem d hd).2
  have hnames : (sortDurations m).map GoDuration.name =
      ((sortDurations m).map GoDuration.order).map nameOfOrder := by
    rw [List.map_map]
    exact List.map_congr_left (fun d hd => (hmem d hd).1)
  rw [hnames]
  have hfix : List.map nameOfOrder [1, 2, 3, 4, 5, 6, 7] = fixedPhaseNames := by
    decide
  exact hfix ▸ horder.map nameOfOrder

/-- C8: the final report is invariant under the step map's iteration order
and its sections appear in strictly ascending step-id order; within each
section the duration phases appear in the fixed presentation order (their
name sequence is a subsequence of DNS, Connection, TLS, Request Write,
Server Processing, Response Read, Total), and the rendered duration block
is invariant under the duration map's iteration order. -/
theorem printDetails_order (l₁ l₂ : List (Nat × ScenarioStepResultSummary))
    (hp : l₁.Perm l₂) (hnd : (l₁.map Prod.fst).Nodup)
    (hdur : ∀ p ∈ l₁, ∀ q ∈ p.2.durations, q.1 ∈ knownPhaseKeys)
    (hdnd : ∀ p ∈ l₁, (p.2.durations.map Prod.fst).Nodup) :
    printDetails l₁ = printDetails l₂ ∧
    ((printDetails l₁).map StepSection.stepId).Pairwise (· < ·) ∧
    (∀ sec ∈ printDetails l₁,
      (sec.durations.map GoDuration.name).Sublist fixedPhaseNames) ∧
    (∀ (m₁ m₂ : List (String × Rat)), m₁.Perm m₂ →
      (m₁.map Prod.fst).Nodup → (∀ q ∈ m₁, q.1 ∈ knownPhaseKeys) →
      sortDurations m₁ = sortDurations m₂) := by
  have hkeyslt : (List.insertionSort (· ≤ ·) (l₁.map Prod.fst)).Pairwise
      (· < ·) := by
    have hnd' : (List.insertionSort (· ≤ ·) (l₁.map Prod.fst)).Nodup :=
      ((List.perm_insertionSort _ _).nodup_iff).mpr hnd
    have hs : (List.insertionSort (· ≤ ·) (l₁.map Prod.fst)).Pairwise
        (· ≤ ·) := List.sorted_insertionSort _ _
    exact (hs.and hnd').imp (fun h => Nat.lt_of_le_of_ne h.1 h.2)
  refine ⟨?_, ?_, ?_, sortDurations_perm⟩
  · have hlk : ∀ k, lookupKey k l₁ = lookupKey k l₂ :=
      fun k => lookupKey_perm k hp hnd
    have hkeys : List.insertionSort (· ≤ ·) (l₁.map Prod.fst) =
        List.insertionSort (· ≤ ·) (l₂.map Prod.fst) := by
      refine List.eq_of_perm_of_sorted ?_ (List.sorted_insertionSort _ _)
        (List.sorted_insertionSort _ _)
      exact (List.perm_insertionSort _ _).trans
        ((hp.map Prod.fst).trans (List.perm_insertionSort _ _).symm)
    simp only [printDetails]
    rw [hkeys]
    exact List.filterMap_congr (fun k _ => by rw [hlk k])
  · simp only [printDetails]
    refine List.Pairwise.sublist ?_ hkeyslt
    refine map_filterMap_sublist _ _ _ ?_
    intro k sec hsec
    obtain ⟨v, _, rfl⟩ := Option.map_eq_some'.mp hsec
    rfl
  · intro sec hsec
    simp only [printDetails, List.mem_filterMap] at hsec
    obtain ⟨k, _, hv⟩ := hsec
    obtain ⟨v, hv1, rfl⟩ := Option.map_eq_some'.mp hv
    have hmem := lookupKey_mem hv1
    exact sortDurations_names_sublist v.durations (hdur _ hmem) (hdnd _ hmem)

/-- C8 (witness): two iteration orders of a concrete two-step aggregate
render identically, with sections in ascending step-id order. -/
theorem printDetails_order_witness :
    printDetails twoStepReportA = printDetails twoStepReportB ∧
    ((printDetails twoStepReportA).map StepSection.stepId).Pairwise
      (· < ·) :=
  ⟨(printDetails_order twoStepReportA twoStepReportB (List.Perm.swap _ _ _)
      (by decide) (by decide) (by decide)).1,
   (printDetails_order twoStepReportA twoStepReportB (List.Perm.swap _ _ _)
      (by decide) (by decide) (by decide)).2.1⟩

theorem printBody_ok_iff (ct : String) (body : DynVal) :
    (∃ out, printBody ct body = .ok out) ↔
      (goContains ct "application/json" = true ∨ ∃ s, body = .str s) := by
  by_cases hct : goContains ct "application/json" = true
  · simp [printBody, hct]
  · cases body <;> simp [printBody, hct]

theorem assertHeader_error_of_not_header (x : Option DynVal)
    (h : ∀ hh, x ≠ some (.header hh)) :
    ∃ e, assertHeader x = .error e := by
  rcases x with _ | dv
  · exact ⟨_, rfl⟩
  · cases dv with
    | header hh => exact absurd rfl (h hh)
    | str s => exact ⟨_, rfl⟩
    | other => exact ⟨_, rfl⟩

/-- C10: the debug transcript of one StepResult is total exactly under the
claimed precondition: it succeeds iff DebugInfo carries a requestHeaders
entry of dynamic type http.Header (and, when the step did not error, a
responseHeaders entry likewise) and each printed body is a string whenever
its content type does not contain application/json; a StepResult violating
any of these makes printDebugStep return the panic value (a failed type
assertion) rather than an ok result with a skipped field. -/
theorem printDebugStep_total_iff (sr : ScenarioStepResult) :
    (∃ out, printDebugStep sr = .ok out) ↔ debugPre sr := by
  unfold printDebugStep debugPre ScenarioStepResultToVerboseHttpRequestInfo
  rcases h1 : lookupKey "requestHeaders" sr.debugInfo with _ | dv
  · simp [assertHeader]
  · cases dv with
    | str s => simp [assertHeader]
    | other => simp [assertHeader]
    | header hh =>
      simp only [assertHeader]
      by_cases hct : goContains (headerGet hh "content-type")
          "application/json" = true
      · simp only [printBody, hct, if_true]
        by_cases he : sr.verbose.error = ""
        · simp only [he, ne_eq, not_true_eq_false, if_false]
          rcases h2 : lookupKey "responseHeaders" sr.debugInfo with _ | dv2
          · simp [assertHeader, he]
          · cases dv2 with
            | str s2 => simp [assertHeader, he]
            | other => simp [assertHeader, he]
            | header hh2 =>
              simp only [assertHeader]
              by_cases hct2 : goContains (headerGet hh2 "content-type")
                  "application/json" = true
              · simp [printBody, hct2, hct, he]
              · cases hrb : sr.verbose.response.body with
                | str s3 => simp [printBody, hct2, hct, he, hrb]
                | header hh3 => simp [printBody, hct2, hct, he, hrb]
                | other => simp [printBody, hct2, hct, he, hrb]
        · simp [he, hct]
      · cases hqb : sr.verbose.request.body with
        | header hh3 => simp [printBody, hct, hqb]
        | other => simp [printBody, hct, hqb]
        | str s1 =>
          simp only [printBody, hct, if_false, hqb]
          by_cases he : sr.verbose.error = ""
          · simp only [he, ne_eq, not_true_eq_false, if_false]
            rcases h2 : lookupKey "responseHeaders" sr.debugInfo with _ | dv2
            · simp [assertHeader, he, hct, hqb]
            · cases dv2 with
              | str s2 => simp [assertHeader, he, hct, hqb]
              | other => simp [assertHeader, he, hct, hqb]
              | header hh2 =>
                simp only [assertHeader]
                by_cases hct2 : goContains (headerGet hh2 "content-type")
                    "application/json" = true
                · simp [printBody, hct2, hct, he, hqb]
                · cases hrb : sr.verbose.response.body with
                  | str s3 => simp [printBody, hct2, hct, he, hqb, hrb]
                  | header hh4 => simp [printBody, hct2, hct, he, hqb, hrb]
                  | other => simp [printBody, hct2, hct, he, hqb, hrb]
          · simp [he, hct, hqb]

/-- C10 (witness): a StepResult whose DebugInfo lacks the requestHeaders
entry makes the transcript panic; one carrying proper headers and string
bodies succeeds. -/
theorem printDebugStep_total_iff_witness :
    (¬ ∃ out, printDebugStep (mkRes 1 .errorOther) = .ok out) ∧
    ∃ out, printDebugStep
      ⟨1, ⟨.errorOther, ""⟩,
       [("requestHeaders", .header []), ("responseHeaders", .header [])],
       ⟨1, "", ⟨"http://x", "GET", [], .str "ping"⟩, "",
        ⟨200, [], .str "pong"⟩⟩⟩ = .ok out := by
  constructor
  · intro h
    obtain ⟨⟨hh, hcontra, _⟩, _⟩ :=
      (printDebugStep_total_iff (mkRes 1 .errorOther)).mp h
    simp [mkRes, lookupKey] at hcontra
  · refine (printDebugStep_total_iff _).mpr ?_
    refine ⟨⟨[], by decide, Or.inr ⟨"ping", rfl⟩⟩, Or.inr ⟨[], by decide,
      Or.inr ⟨"pong", rfl⟩⟩⟩

end Ddosify
